import Mathlib

/-!
Verification of the py-hprof heap-dump reader against its natural-language
specification.  The Lean definitions below are shallow embeddings of the
Python sources:

* src/hprof/_binary.py   — primitive reads and the staged record-index builder
* src/hprof/heap.py      — the heap object model (JavaClass, JavaObject, Ref, cast)
* src/hprof/heaprecord/objectrecord.py — the InstanceDump subrecord length

Machine integers are modelled as Nat/Int; Python byte strings as List Nat;
fallible code returns Except.  Python dicts (insertion ordered, string/int
keyed) are modelled as association lists with first-match lookup and
in-place overwrite.
-/

set_option maxRecDepth 10000

namespace HprofSpec

/-! ## Python dict model (insertion-ordered association lists) -/

/-- Lookup in a Python dict: first (and only) binding for the key. -/
def dictGet {α β : Type} [DecidableEq α] : List (α × β) → α → Option β
  | [], _ => none
  | (k0, v0) :: rest, k => if k0 = k then some v0 else dictGet rest k

/-- Python membership test k in d. -/
def dictMem {α β : Type} [DecidableEq α] (d : List (α × β)) (k : α) : Bool :=
  (dictGet d k).isSome

/-- Python d[k] = v: overwrite the existing binding, else append a new one. -/
def dictSet {α β : Type} [DecidableEq α] : List (α × β) → α → β → List (α × β)
  | [], k, v => [(k, v)]
  | (k0, v0) :: rest, k, v =>
    if k0 = k then (k0, v) :: rest else (k0, v0) :: dictSet rest k v

/-- The keys of a dict, in insertion order. -/
def dictKeys {α β : Type} (d : List (α × β)) : List α := d.map Prod.fst

/-! ## Primitive reads (HprofFile._read_bytes, read_byte, read_* in _binary.py)

Addresses are Int so that negative start addresses are representable; the
byte source is a List Nat of byte values. -/

/-- Error kinds raised by the read layer.  eofError models hprof EofError,
valueError the builtin ValueError, formatError hprof FileFormatError
(BadFormat) and unicodeDecodeError the builtin UnicodeDecodeError. -/
inductive ReadErr where
  | eofError
  | valueError
  | formatError
  | unicodeDecodeError
  deriving DecidableEq, Repr

/-- Python slice data[start:start+n] for 0 ≤ start. -/
def pySlice (data : List Nat) (start n : Nat) : List Nat :=
  (data.drop start).take n

/-- HprofFile._read_bytes: negative start raises EofError before anything
else; with a byte count, reading past the end raises EofError; with
nbytes = none the read scans to the first NUL byte (excluded), raising
EofError when no NUL is found before the end. -/
def readBytesPy (data : List Nat) (start : Int) (nbytes : Option Int) :
    Except ReadErr (List Nat) :=
  if start < 0 then .error .eofError
  else
    match nbytes with
    | some n =>
      if n < 0 then .error .valueError
      else if (data.length : Int) < start + n then .error .eofError
      else .ok (pySlice data start.toNat n.toNat)
    | none =>
      match (data.drop start.toNat).findIdx? (fun b => b == 0) with
      | some k => .ok ((data.drop start.toNat).take k)
      | none => .error .eofError

/-- HprofFile.read_byte: its own negative-address check, then a direct
index into the data, IndexError surfacing as EofError. -/
def readByte (data : List Nat) (addr : Int) : Except ReadErr Nat :=
  if addr < 0 then .error .eofError
  else
    match data.get? addr.toNat with
    | some b => .ok b
    | none => .error .eofError

/-- Big-endian unsigned value of a byte string (the loop in read_id and
the >-prefixed struct unpack formats). -/
def beUnsigned (bs : List Nat) : Nat :=
  bs.foldl (fun acc b => acc * 256 + b) 0

/-- Two-complement reinterpretation of a width-bit unsigned value, as done
by the signed struct unpack formats. -/
def toSigned (width : Nat) (u : Nat) : Int :=
  if u < 2 ^ (width - 1) then (u : Int) else (u : Int) - 2 ^ width

/-- HprofFile.read_uint. -/
def readUint (data : List Nat) (addr : Int) : Except ReadErr Nat :=
  (readBytesPy data addr (some 4)).map beUnsigned

/-- HprofFile.read_int. -/
def readInt (data : List Nat) (addr : Int) : Except ReadErr Int :=
  (readBytesPy data addr (some 4)).map (fun bs => toSigned 32 (beUnsigned bs))

/-- HprofFile.read_ushort. -/
def readUshort (data : List Nat) (addr : Int) : Except ReadErr Nat :=
  (readBytesPy data addr (some 2)).map beUnsigned

/-- HprofFile.read_short. -/
def readShort (data : List Nat) (addr : Int) : Except ReadErr Int :=
  (readBytesPy data addr (some 2)).map (fun bs => toSigned 16 (beUnsigned bs))

/-- HprofFile.read_long. -/
def readLong (data : List Nat) (addr : Int) : Except ReadErr Int :=
  (readBytesPy data addr (some 8)).map (fun bs => toSigned 64 (beUnsigned bs))

/-- HprofFile.read_id: idsize bytes folded big-endian into an unsigned
integer. -/
def readId (data : List Nat) (idsize : Nat) (addr : Int) : Except ReadErr Nat :=
  (readBytesPy data addr (some idsize)).map beUnsigned

/-- HprofFile.read_float: the four big-endian bytes of the IEEE-754 value,
kept as raw bits (bit pattern, not a Lean floating value). -/
def readFloatBits (data : List Nat) (addr : Int) : Except ReadErr Nat :=
  (readBytesPy data addr (some 4)).map beUnsigned

/-- HprofFile.read_double: eight big-endian bytes kept as raw bits. -/
def readDoubleBits (data : List Nat) (addr : Int) : Except ReadErr Nat :=
  (readBytesPy data addr (some 8)).map beUnsigned

/-- HprofFile.read_boolean: one byte; 0 is false, 1 is true, anything else
is FileFormatError. -/
def readBoolean (data : List Nat) (addr : Int) : Except ReadErr Bool :=
  match readBytesPy data addr (some 1) with
  | .error e => .error e
  | .ok bs =>
    match bs with
    | [b] => if b = 0 then .ok false else if b = 1 then .ok true else .error .formatError
    | _ => .error .formatError

/-- bytes.decode with the utf-16-be codec in strict mode, applied to
exactly two bytes: the big-endian code unit is produced, except that the
CPython codec rejects surrogate code units 0xD800..0xDFFF.  A lone high
surrogate fails with unexpected end of data, a lone low surrogate with
illegal encoding; both raise UnicodeDecodeError. -/
def utf16beDecode2 (b0 b1 : Nat) : Except ReadErr Nat :=
  let u := b0 * 256 + b1
  if 0xD800 ≤ u ∧ u ≤ 0xDFFF then .error .unicodeDecodeError else .ok u

/-- HprofFile.read_char: exactly two bytes, decoded as one UTF-16-BE code
unit. -/
def readChar (data : List Nat) (addr : Int) : Except ReadErr Nat :=
  match readBytesPy data addr (some 2) with
  | .error e => .error e
  | .ok bs =>
    match bs with
    | [b0, b1] => utf16beDecode2 b0 b1
    | _ => .error .unicodeDecodeError

/-! ## InstanceDump subrecord length (heaprecord/objectrecord.py)

AutoOffsets (from hprof.offset, a helper whose module is not among the
sources) assigns cumulative offsets to the named fields starting from the
given base; idoffset(1) contributes one identifier width.  Its semantics
are pinned by src/tests/test_objectrecord.py, whose expectations
(len(o) = 13 + 2*idsize for a 4-byte payload, and the address of the next
subrecord = address + len) fix both the base-1 start after the tag byte
and the cumulative layout. -/

/-- Offset of the field following the listed fixed-size fields, for a
layout starting at the given base. -/
def autoOffsetAfter (base : Nat) (sizes : List Nat) : Nat :=
  base + sizes.sum

/-- ObjectRecord._offsets.DATA: tag byte, then ID (idsize), STRACE (4),
CLSID (idsize), DATASIZE (4). -/
def objectRecordDataOffset (idsize : Nat) : Nat :=
  autoOffsetAfter 1 [idsize, 4, idsize, 4]

/-- ObjectRecord.__len__: self._off.DATA + self.datalen. -/
def objectRecordLen (idsize datasize : Nat) : Nat :=
  objectRecordDataOffset idsize + datasize

/-! ## Heap object model (src/hprof/heap.py) -/

/-- Typed java values stored in field slots. -/
inductive JValue where
  | jnull
  | jbool (b : Bool)
  | jint (i : Int)
  | jlong (i : Int)
  | jobjid (oid : Nat)
  deriving DecidableEq, Repr

/-- A java class as built by JavaClass.__new__: simple name, the value of
the dunder module attribute set by _create_class (empty string modelling
None), the ordered instance_attrs list from which _hprof_ifields is
enumerated, the _hprof_sfields static table, and the single superclass.
The chain is rooted at the plain Python class JavaObject. -/
inductive JClass where
  | javaObject : JClass
  | mk (name : String) (module : String) (iattrs : List String)
      (sfields : List (String × JValue)) (super : JClass) : JClass
  deriving DecidableEq, Repr

/-- JavaClass.__new__ builds _hprof_ifields by enumerating instance_attrs
into a dict from field name to slot index (a repeated name keeps the last
index, as for a Python dict). -/
def hprofIfields (iattrs : List String) : List (String × Nat) :=
  iattrs.enum.foldl (fun d p => dictSet d p.2 p.1) []

/-- JavaClass.__str__: module.name when the module is set, else the bare
name.  Only java classes carry this form; the plain JavaObject root class
keeps its Python repr. -/
def clsStr : JClass → String
  | .javaObject => "hprof.heap.JavaObject"
  | .mk name module _ _ _ => if module = "" then name else module ++ "." ++ name

/-- issubclass(c, t) for the single-superclass chain: t occurs in the
chain of c, every chain being rooted at JavaObject. -/
def chainContains : JClass → JClass → Bool
  | .javaObject, t => decide (t = JClass.javaObject)
  | .mk n m a sf sup, t => decide (JClass.mk n m a sf sup = t) || chainContains sup t

/-- A JavaObject instance: its id, its dynamic class, and the per-class
field storage.  Each class of the chain declares its own
_hprof_ifieldvals slot, so the storage is keyed by the class whose member
descriptor is used for the access. -/
structure JavaObj where
  objid : Nat
  cls : JClass
  ifieldvals : List (JClass × List JValue)
  deriving DecidableEq, Repr

/-- Errors surfaced by attribute lookup and narrowing. -/
inductive ObjErr where
  | attributeError (name : String)
  | unsetSlot
  | indexError
  | typeError
  deriving DecidableEq, Repr

/-- The loop of JavaObject.__getattr__: walk the chain from t up to (and
excluding) JavaObject; at each level instance fields are checked first
(the value read from the storage slot belonging to that level), then
static fields; a miss at the root raises AttributeError. -/
def objGetattrFrom (self : JavaObj) (name : String) : JClass → Except ObjErr JValue
  | .javaObject => .error (.attributeError name)
  | .mk n m iattrs sfields sup =>
    match dictGet (hprofIfields iattrs) name with
    | some ix =>
      match dictGet self.ifieldvals (JClass.mk n m iattrs sfields sup) with
      | some vals =>
        match vals.get? ix with
        | some v => .ok v
        | none => .error .indexError
      | none => .error .unsetSlot
    | none =>
      match dictGet sfields name with
      | some v => .ok v
      | none => objGetattrFrom self name sup

/-- JavaObject.__getattr__(name, reftype): the walk starts at the dynamic
class, or at reftype when the access comes through a Ref. -/
def objGetattr (self : JavaObj) (name : String) (reftype : Option JClass) :
    Except ObjErr JValue :=
  match reftype with
  | none => objGetattrFrom self name self.cls
  | some t => objGetattrFrom self name t

/-- JavaClass.__getattr__: the static-field walk on a class object. -/
def classGetattr : JClass → String → Except ObjErr JValue
  | .javaObject, name => .error (.attributeError name)
  | .mk _ _ _ sfields sup, name =>
    match dictGet sfields name with
    | some v => .ok v
    | none => classGetattr sup name

/-- The Python values the narrowing layer manipulates: JavaObject
instances, class objects (instances of the JavaClass metaclass), and Ref
views. -/
inductive PyVal where
  | obj (o : JavaObj)
  | jcls (c : JClass)
  | ref (target : JavaObj) (reftype : JClass)
  deriving DecidableEq, Repr

/-- Refs to refs are not allowed: Ref.__new__ first replaces a Ref target
by the object behind it. -/
def unwrapRef : PyVal → PyVal
  | .ref t _ => .obj t
  | v => v

/-- type(target) is reftype: only a JavaObject instance can have a java
class (or the JavaObject root) as its exact type; class objects have the
metaclass JavaClass as their type and Refs the Ref class. -/
def pyTypeIs : PyVal → JClass → Bool
  | .obj o, rt => decide (o.cls = rt)
  | .jcls _, _ => false
  | .ref _ _, _ => false

/-- isinstance(target, JavaClass): true exactly for class objects. -/
def isClassObj : PyVal → Bool
  | .jcls _ => true
  | _ => false

/-- isinstance(inst, cls).  For a java class the overridden
JavaClass.__instancecheck__ runs: a Ref argument is unwrapped; a class
object is an instance exactly of the classes named java.lang.Object or
java.lang.Class; otherwise the ordinary subclass test on the dynamic type
applies.  For the plain JavaObject root class the ordinary semantics
apply directly. -/
def pyIsinstance (inst : PyVal) (cls : JClass) : Bool :=
  match cls with
  | .javaObject =>
    match inst with
    | .obj _ => true
    | _ => false
  | .mk n m a sf sup =>
    match unwrapRef inst with
    | .jcls _ => decide (clsStr (JClass.mk n m a sf sup) = "java.lang.Object"
        ∨ clsStr (JClass.mk n m a sf sup) = "java.lang.Class")
    | .obj o => chainContains o.cls (JClass.mk n m a sf sup)
    | .ref _ _ => false

/-- Ref.__new__(target, reftype): unwrap a Ref target; with no reftype or
the exact dynamic type, return the target itself; a target that is not an
instance of reftype is a TypeError; class objects are returned as-is
(refs to classes make no sense); otherwise a fresh Ref is produced. -/
def refNew (target0 : PyVal) (reftype : Option JClass) : Except ObjErr PyVal :=
  let target := unwrapRef target0
  match reftype with
  | none => .ok target
  | some rt =>
    if pyTypeIs target rt then .ok target
    else if pyIsinstance target rt then
      match target with
      | .jcls c => .ok (.jcls c)
      | .obj o => .ok (.ref o rt)
      | .ref t _ => .ok (.ref t rt)
    else .error .typeError

/-- hprof.heap.cast(obj, desired): just Ref construction. -/
def cast (target : PyVal) (desired : Option JClass) : Except ObjErr PyVal :=
  refNew target desired

/-- Ref.__getattribute__ delegates to the target with the declared type;
attribute access on the other values resolves as usual. -/
def pyGetattr (v : PyVal) (name : String) : Except ObjErr JValue :=
  match v with
  | .obj o => objGetattr o name none
  | .ref t rt => objGetattr t name (some rt)
  | .jcls c => classGetattr c name

/-! ## The record-index builder (HprofFile._gen_from_records and callers)

The record stream produced by HprofFile.records() is taken as input: the
typed records the builder inspects are Utf8 names (with their string and
absolute address), ClassLoad records (class object id and resolved class
name), heap-dump segments (identified here by their address), heap-dump
ends, and everything else. -/

/-- The typed records relevant to the index builder. -/
inductive JRecord where
  | utf8 (nameid : Nat) (str : String) (hprofAddr : Nat)
  | classLoad (classId : Nat) (className : String)
  | heapDumpSegment (hprofAddr : Nat)
  | heapDumpEnd
  | other
  deriving DecidableEq, Repr

/-- r.str on a Utf8 record. -/
def utf8Str : JRecord → String
  | .utf8 _ s _ => s
  | _ => ""

/-- r.hprof_addr on a Utf8 record. -/
def utf8Addr : JRecord → Nat
  | .utf8 _ _ a => a
  | _ => 0

/-- Keys of the _class_info dict: class object ids and class names share
one dict (Python int and str keys never collide). -/
abbrev ClassKey := Nat ⊕ String

/-- Errors raised by the builder and its callers.  dupName, dupClassName
and dupClassId are the FileFormatError (BadFormat) cases; refError models
hprof RefError, classNotFound hprof ClassNotFoundError, assertFailed a
failing Python assert statement. -/
inductive HError where
  | dupName (nameid : Nat) (oldStr : String) (oldAddr : Nat)
      (newStr : String) (newAddr : Nat)
  | dupClassName (className : String)
  | dupClassId (classId : Nat)
  | refError (nameid : Nat)
  | classNotFound
  | assertFailed
  deriving DecidableEq, Repr

/-- The mutable fields of HprofFile touched by the builder. -/
structure HState where
  names : List (Nat × JRecord)
  classInfo : List (ClassKey × JRecord)
  dumps : Option (List (List JRecord))
  cachesBuilt : Nat
  deriving DecidableEq, Repr

/-- HprofFile.__init__: empty caches, no dumps, build level 0. -/
def hfFresh : HState :=
  { names := [], classInfo := [], dumps := none, cachesBuilt := 0 }

/-- The loop state of _gen_from_records: the two dict caches being
mutated in place, the list of dumps closed so far and the currently open
dump.  In the Python code the open dump already sits at the end of the
dumps list; here it is kept apart and appended on close or at the end. -/
structure GenAcc where
  names : List (Nat × JRecord)
  classInfo : List (ClassKey × JRecord)
  closedDumps : List (List JRecord)
  curdump : Option (List JRecord)
  deriving DecidableEq, Repr

/-- One iteration of the record loop in _gen_from_records.  built is the
value of _caches_built on entry (the field is only reassigned after the
loop), glevel the requested level.  Raises happen before any mutation of
that iteration. -/
def genStep (built glevel : Nat) (acc : GenAcc) (r : JRecord) :
    Except HError GenAcc :=
  match r with
  | .utf8 nameid s addr =>
    if built < 1 ∧ 1 ≤ glevel then
      match dictGet acc.names nameid with
      | some old =>
        .error (.dupName nameid (utf8Str old) (utf8Addr old) s addr)
      | none =>
        .ok { acc with names := dictSet acc.names nameid (.utf8 nameid s addr) }
    else .ok acc
  | .classLoad cid cname =>
    if built < 2 ∧ 2 ≤ glevel then
      if dictMem acc.classInfo (.inr cname) then .error (.dupClassName cname)
      else if dictMem acc.classInfo (.inl cid) then .error (.dupClassId cid)
      else
        let ci1 := dictSet acc.classInfo (.inr cname) (.classLoad cid cname)
        .ok { acc with classInfo := dictSet ci1 (.inl cid) (.classLoad cid cname) }
    else .ok acc
  | .heapDumpSegment a =>
    if built < 3 ∧ 3 ≤ glevel then
      match acc.curdump with
      | none => .ok { acc with curdump := some [JRecord.heapDumpSegment a] }
      | some d => .ok { acc with curdump := some (d ++ [JRecord.heapDumpSegment a]) }
    else .ok acc
  | .heapDumpEnd =>
    if built < 3 ∧ 3 ≤ glevel then
      match acc.curdump with
      | none => .ok { acc with closedDumps := acc.closedDumps ++ [[]] }
      | some d => .ok { acc with closedDumps := acc.closedDumps ++ [d], curdump := none }
    else .ok acc
  | .other => .ok acc

/-- The record loop: on a raise the partially mutated caches survive. -/
def genLoop (built glevel : Nat) (acc : GenAcc) :
    List JRecord → GenAcc × Option HError
  | [] => (acc, none)
  | r :: rest =>
    match genStep built glevel acc r with
    | .error e => (acc, some e)
    | .ok acc2 => genLoop built glevel acc2 rest

/-- The part of _gen_from_records after the early return and the cache
clearing: the assert that no dump tuple exists below level 3, the single
pass, and on success the dump tuple (level 3 only) and the new build
level.  built, names0, classInfo0 and dumps0 are the values of the
HprofFile fields when the loop starts. -/
def genBuild (glevel : Nat) (records : List JRecord) (built : Nat)
    (names0 : List (Nat × JRecord)) (classInfo0 : List (ClassKey × JRecord))
    (dumps0 : Option (List (List JRecord))) : HState × Option HError :=
  if built < 3 ∧ dumps0 ≠ none then
    ({ names := names0, classInfo := classInfo0, dumps := dumps0,
       cachesBuilt := built }, some .assertFailed)
  else
    match genLoop built glevel
        { names := names0, classInfo := classInfo0,
          closedDumps := [], curdump := none } records with
    | (acc, some e) =>
      ({ names := acc.names, classInfo := acc.classInfo, dumps := dumps0,
         cachesBuilt := built }, some e)
    | (acc, none) =>
      ({ names := acc.names, classInfo := acc.classInfo,
         dumps := if 3 ≤ glevel then some (acc.closedDumps ++ acc.curdump.toList)
                  else dumps0,
         cachesBuilt := glevel }, none)

/-- HprofFile._gen_from_records(genlevel): the entry asserts, the early
return when the requested level is already built, the clearing of every
cache not yet built, then the pass over all records.  The returned pair
is the mutated state and the raised error, if any. -/
def genFromRecords (glevel : Nat) (records : List JRecord) (st : HState) :
    HState × Option HError :=
  if 3 < glevel ∨ 3 < st.cachesBuilt then (st, some .assertFailed)
  else if glevel ≤ st.cachesBuilt then (st, none)
  else genBuild glevel records st.cachesBuilt
    (if st.cachesBuilt < 1 then [] else st.names)
    (if st.cachesBuilt < 2 then [] else st.classInfo)
    st.dumps

/-- HprofFile.name(nameid): try the cache, build level 1 on a miss, and
turn a final miss into RefError.  Build errors propagate. -/
def hfName (records : List JRecord) (st : HState) (nameid : Nat) :
    HState × Except HError JRecord :=
  match dictGet st.names nameid with
  | some r => (st, .ok r)
  | none =>
    match genFromRecords 1 records st with
    | (st2, some e) => (st2, .error e)
    | (st2, none) =>
      match dictGet st2.names nameid with
      | some r => (st2, .ok r)
      | none => (st2, .error (.refError nameid))

/-- HprofFile.get_class_info(id-or-name): try the cache, build level 2 on
a miss, and turn a final miss into ClassNotFoundError. -/
def hfGetClassInfo (records : List JRecord) (st : HState) (key : ClassKey) :
    HState × Except HError JRecord :=
  match dictGet st.classInfo key with
  | some r => (st, .ok r)
  | none =>
    match genFromRecords 2 records st with
    | (st2, some e) => (st2, .error e)
    | (st2, none) =>
      match dictGet st2.classInfo key with
      | some r => (st2, .ok r)
      | none => (st2, .error .classNotFound)

/-- HprofFile.dumps(): build level 3 when no dump tuple exists yet, then
yield it.  A successful level-3 build always leaves a tuple, so the final
fallback is unreachable. -/
def hfDumps (records : List JRecord) (st : HState) :
    HState × Except HError (List (List JRecord)) :=
  match st.dumps with
  | some ds => (st, .ok ds)
  | none =>
    match genFromRecords 3 records st with
    | (st2, some e) => (st2, .error e)
    | (st2, none) =>
      match st2.dumps with
      | some ds => (st2, .ok ds)
      | none => (st2, .error .assertFailed)

/-! ## Spec-side definitions used for refinement comparison -/

/-- Modelled from the spec words for the level-3 grouping, to be compared
with the builder: group consecutive HeapDumpSegment records into one dump
until a HeapDumpEnd closes it; a trailing group without HeapDumpEnd still
becomes a final dump; a HeapDumpEnd with no preceding segment since the
last close yields an empty dump.  The first argument is the group
currently open. -/
def specDumpGroupsGo : Option (List JRecord) → List JRecord → List (List JRecord)
  | none, [] => []
  | some g, [] => [g]
  | cur, .heapDumpSegment a :: rest =>
    match cur with
    | none => specDumpGroupsGo (some [JRecord.heapDumpSegment a]) rest
    | some g => specDumpGroupsGo (some (g ++ [JRecord.heapDumpSegment a])) rest
  | cur, .heapDumpEnd :: rest =>
    (match cur with | none => [] | some g => g) :: specDumpGroupsGo none rest
  | cur, _ :: rest => specDumpGroupsGo cur rest

/-- The dump groups of a record sequence, per the spec words. -/
def specDumpGroups (records : List JRecord) : List (List JRecord) :=
  specDumpGroupsGo none records

/-- The Utf8 name bindings of a record sequence, in file order. -/
def namePairs : List JRecord → List (Nat × JRecord)
  | [] => []
  | .utf8 i s a :: rest => (i, .utf8 i s a) :: namePairs rest
  | _ :: rest => namePairs rest

/-- The class-info bindings of a record sequence: each ClassLoad is keyed
by its class name and then by its class object id, in file order. -/
def loadPairs : List JRecord → List (ClassKey × JRecord)
  | [] => []
  | .classLoad cid cn :: rest =>
    (.inr cn, .classLoad cid cn) :: (.inl cid, .classLoad cid cn) :: loadPairs rest
  | _ :: rest => loadPairs rest

/-- Records the index builder ignores at every level. -/
def notNameOrLoad : JRecord → Bool
  | .utf8 _ _ _ => false
  | .classLoad _ _ => false
  | _ => true

/-! # Theorems -/

/-! ## Helper lemmas about the dict model -/

theorem dictGet_cons {α β : Type} [DecidableEq α] (k0 : α) (v0 : β)
    (d : List (α × β)) (k : α) :
    dictGet ((k0, v0) :: d) k = if k0 = k then some v0 else dictGet d k := rfl

theorem dictGet_eq_none_of_not_mem {α β : Type} [DecidableEq α]
    {d : List (α × β)} {k : α} (h : k ∉ dictKeys d) : dictGet d k = none := by
  induction d with
  | nil => rfl
  | cons p rest ih =>
    obtain ⟨k0, v0⟩ := p
    rw [dictGet_cons]
    have hk : k0 ≠ k := by
      intro he
      exact h (by simp [dictKeys, he])
    rw [if_neg hk]
    exact ih (fun hm => h (by simp [dictKeys] at hm ⊢; exact Or.inr hm))

theorem dictSet_of_not_mem {α β : Type} [DecidableEq α]
    {d : List (α × β)} {k : α} (v : β) (h : k ∉ dictKeys d) :
    dictSet d k v = d ++ [(k, v)] := by
  induction d with
  | nil => rfl
  | cons p rest ih =>
    obtain ⟨k0, v0⟩ := p
    have hk : k0 ≠ k := by
      intro he
      exact h (by simp [dictKeys, he])
    simp only [dictSet, if_neg hk, List.cons_append, List.cons.injEq, true_and]
    exact ih (fun hm => h (by simp [dictKeys] at hm ⊢; exact Or.inr hm))

theorem dictGet_append_of_not_mem {α β : Type} [DecidableEq α]
    {d1 : List (α × β)} (d2 : List (α × β)) {k : α} (h : k ∉ dictKeys d1) :
    dictGet (d1 ++ d2) k = dictGet d2 k := by
  induction d1 with
  | nil => rfl
  | cons p rest ih =>
    obtain ⟨k0, v0⟩ := p
    have hk : k0 ≠ k := by
      intro he
      exact h (by simp [dictKeys, he])
    rw [List.cons_append, dictGet_cons, if_neg hk]
    exact ih (fun hm => h (by simp [dictKeys] at hm ⊢; exact Or.inr hm))

/-! ## Builder lemmas -/

theorem genStep_ok_names (built g : Nat) (h : 1 ≤ built) (acc : GenAcc)
    (r : JRecord) (acc2 : GenAcc) (he : genStep built g acc r = .ok acc2) :
    acc2.names = acc.names := by
  cases r with
  | utf8 i s a =>
    have hcond : ¬ (built < 1 ∧ 1 ≤ g) := by omega
    simp only [genStep, if_neg hcond] at he
    injection he with he
    subst he
    rfl
  | classLoad cid cn =>
    simp only [genStep] at he
    split at he
    · split at he
      · exact absurd he (by simp)
      · split at he
        · exact absurd he (by simp)
        · injection he with he
          subst he
          rfl
    · injection he with he
      subst he
      rfl
  | heapDumpSegment a =>
    simp only [genStep] at he
    split at he
    · split at he <;> (injection he with he; subst he; rfl)
    · injection he with he
      subst he
      rfl
  | heapDumpEnd =>
    simp only [genStep] at he
    split at he
    · split at he <;> (injection he with he; subst he; rfl)
    · injection he with he
      subst he
      rfl
  | other =>
    injection he with he
    subst he
    rfl

theorem genStep_ok_classInfo (built g : Nat) (h : 2 ≤ built) (acc : GenAcc)
    (r : JRecord) (acc2 : GenAcc) (he : genStep built g acc r = .ok acc2) :
    acc2.classInfo = acc.classInfo := by
  cases r with
  | utf8 i s a =>
    simp only [genStep] at he
    split at he
    · split at he
      · exact absurd he (by simp)
      · injection he with he
        subst he
        rfl
    · injection he with he
      subst he
      rfl
  | classLoad cid cn =>
    have hcond : ¬ (built < 2 ∧ 2 ≤ g) := by omega
    simp only [genStep, if_neg hcond] at he
    injection he with he
    subst he
    rfl
  | heapDumpSegment a =>
    simp only [genStep] at he
    split at he
    · split at he <;> (injection he with he; subst he; rfl)
    · injection he with he
      subst he
      rfl
  | heapDumpEnd =>
    simp only [genStep] at he
    split at he
    · split at he <;> (injection he with he; subst he; rfl)
    · injection he with he
      subst he
      rfl
  | other =>
    injection he with he
    subst he
    rfl

theorem genLoop_fst_names (built g : Nat) (h : 1 ≤ built) :
    ∀ (recs : List JRecord) (acc : GenAcc),
      ((genLoop built g acc recs).1).names = acc.names := by
  intro recs
  induction recs with
  | nil => intro acc; rfl
  | cons r rest ih =>
    intro acc
    simp only [genLoop]
    cases he : genStep built g acc r with
    | error e => rfl
    | ok acc2 =>
      rw [ih acc2]
      exact genStep_ok_names built g h acc r acc2 he

theorem genLoop_fst_classInfo (built g : Nat) (h : 2 ≤ built) :
    ∀ (recs : List JRecord) (acc : GenAcc),
      ((genLoop built g acc recs).1).classInfo = acc.classInfo := by
  intro recs
  induction recs with
  | nil => intro acc; rfl
  | cons r rest ih =>
    intro acc
    simp only [genLoop]
    cases he : genStep built g acc r with
    | error e => rfl
    | ok acc2 =>
      rw [ih acc2]
      exact genStep_ok_classInfo built g h acc r acc2 he

theorem genFromRecords_early (g : Nat) (recs : List JRecord) (st : HState)
    (hg : g ≤ 3) (hb : st.cachesBuilt ≤ 3) (hge : g ≤ st.cachesBuilt) :
    genFromRecords g recs st = (st, none) := by
  unfold genFromRecords
  rw [if_neg (by omega), if_pos hge]

theorem genFromRecords_error_fields (g : Nat) (recs : List JRecord)
    (st st1 : HState) (e : HError)
    (heq : genFromRecords g recs st = (st1, some e)) :
    st1.cachesBuilt = st.cachesBuilt ∧ st1.dumps = st.dumps ∧
    (1 ≤ st.cachesBuilt → st1.names = st.names) ∧
    (2 ≤ st.cachesBuilt → st1.classInfo = st.classInfo) := by
  unfold genFromRecords at heq
  split at heq
  · injection heq with h1 h2
    subst h1
    exact ⟨rfl, rfl, fun _ => rfl, fun _ => rfl⟩
  · split at heq
    · exact absurd heq (by simp)
    · unfold genBuild at heq
      split at heq
      · injection heq with h1 h2
        subst h1
        refine ⟨rfl, rfl, fun hb => ?_, fun hb => ?_⟩
        · simp only [if_neg (by omega : ¬ st.cachesBuilt < 1)]
        · simp only [if_neg (by omega : ¬ st.cachesBuilt < 2)]
      · split at heq
        · next acc e2 hloop =>
          injection heq with h1 h2
          subst h1
          refine ⟨rfl, rfl, fun hb => ?_, fun hb => ?_⟩
          · have := genLoop_fst_names st.cachesBuilt g hb recs
              { names := if st.cachesBuilt < 1 then [] else st.names,
                classInfo := if st.cachesBuilt < 2 then [] else st.classInfo,
                closedDumps := [], curdump := none }
            rw [hloop] at this
            simpa only [if_neg (by omega : ¬ st.cachesBuilt < 1)] using this
          · have := genLoop_fst_classInfo st.cachesBuilt g hb recs
              { names := if st.cachesBuilt < 1 then [] else st.names,
                classInfo := if st.cachesBuilt < 2 then [] else st.classInfo,
                closedDumps := [], curdump := none }
            rw [hloop] at this
            simpa only [if_neg (by omega : ¬ st.cachesBuilt < 2)] using this
        · exact absurd heq (by simp)

theorem genFromRecords_congr (g : Nat) (recs : List JRecord) (s t : HState)
    (h1 : s.cachesBuilt = t.cachesBuilt) (h2 : s.dumps = t.dumps)
    (h3 : 1 ≤ t.cachesBuilt → s.names = t.names)
    (h4 : 2 ≤ t.cachesBuilt → s.classInfo = t.classInfo)
    (h5 : t.cachesBuilt < g) (hg : g ≤ 3) :
    genFromRecords g recs s = genFromRecords g recs t := by
  have hn : (if s.cachesBuilt < 1 then [] else s.names)
      = (if t.cachesBuilt < 1 then [] else t.names) := by
    rw [h1]
    by_cases hlt : t.cachesBuilt < 1
    · rw [if_pos hlt, if_pos hlt]
    · rw [if_neg hlt, if_neg hlt]
      exact h3 (by omega)
  have hc : (if s.cachesBuilt < 2 then [] else s.classInfo)
      = (if t.cachesBuilt < 2 then [] else t.classInfo) := by
    rw [h1]
    by_cases hlt : t.cachesBuilt < 2
    · rw [if_pos hlt, if_pos hlt]
    · rw [if_neg hlt, if_neg hlt]
      exact h4 (by omega)
  unfold genFromRecords
  rw [hn, hc, h1, h2]
  simp only [if_neg (by omega : ¬ (3 < g ∨ 3 < t.cachesBuilt)),
    if_neg (by omega : ¬ g ≤ t.cachesBuilt)]

/-! ## C3 — staged builds and clean retries -/

/-- C3 counterexample: a failed level-2 build (duplicate class name) over
these records leaves level 0 with a non-empty class-info cache; the claim
says a subsequent call requesting only level 1 clears exactly the caches
below level 1 — leaving the class-info cache alone — but the code clears
every not-yet-built cache, so the level-1 call empties the class-info
cache as well. -/
theorem genFromRecords_clearing_counterexample :
    ((genFromRecords 2
        [.classLoad 5 "C", .utf8 1 "a" 100, .classLoad 6 "C"]
        hfFresh).1).cachesBuilt = 0 ∧
    ((genFromRecords 2
        [.classLoad 5 "C", .utf8 1 "a" 100, .classLoad 6 "C"]
        hfFresh).1).classInfo ≠ [] ∧
    ((genFromRecords 1
        [.classLoad 5 "C", .utf8 1 "a" 100, .classLoad 6 "C"]
        (genFromRecords 2
          [.classLoad 5 "C", .utf8 1 "a" 100, .classLoad 6 "C"]
          hfFresh).1).1).classInfo = [] ∧
    ((genFromRecords 1
        [.classLoad 5 "C", .utf8 1 "a" 100, .classLoad 6 "C"]
        (genFromRecords 2
          [.classLoad 5 "C", .utf8 1 "a" 100, .classLoad 6 "C"]
          hfFresh).1).2) = none := by
  refine ⟨rfl, ?_, rfl, rfl⟩
  intro h
  simp [genFromRecords, genBuild, genLoop, genStep, hfFresh, dictGet, dictSet,
    dictMem] at h

/-- C3 amended: a call requesting level g returns immediately with no
state change when the current level is at least g; otherwise every cache
not yet built is cleared (names below level 1, class-info below level 2,
regardless of g).  When the pass raises, the build-level counter and the
dump tuple are unchanged, and a subsequent call requesting a level above
the current one behaves over the same records exactly as it would have
had the failed call never happened — partial progress is abandoned. -/
theorem genFromRecords_staged_retry (g : Nat) (records : List JRecord)
    (st : HState) (hg : g ≤ 3) (hb : st.cachesBuilt ≤ 3) :
    (g ≤ st.cachesBuilt → genFromRecords g records st = (st, none)) ∧
    (∀ st1 e, genFromRecords g records st = (st1, some e) →
      st1.cachesBuilt = st.cachesBuilt ∧ st1.dumps = st.dumps ∧
      ∀ g2, g2 ≤ 3 → st.cachesBuilt < g2 →
        genFromRecords g2 records st1 = genFromRecords g2 records st) := by
  constructor
  · intro hge
    exact genFromRecords_early g records st hg hb hge
  · intro st1 e heq
    obtain ⟨hb1, hd1, hn1, hc1⟩ := genFromRecords_error_fields g records st st1 e heq
    refine ⟨hb1, hd1, fun g2 hg2 hlt => ?_⟩
    exact genFromRecords_congr g2 records st1 st hb1 hd1
      (fun h => hn1 h) (fun h => hc1 h) hlt hg2

/-- C3 witness: the theorem applied to a duplicate-name record list from
the fresh state; the failed level-1 build leaves the counter at 0 and the
dumps unset, and the retry at level 1 equals the original call. -/
theorem genFromRecords_staged_retry_witness :
    (1 ≤ 3 ∧ HState.cachesBuilt hfFresh ≤ 3) ∧
    ((1 ≤ HState.cachesBuilt hfFresh →
      genFromRecords 1 [.utf8 1 "a" 10, .utf8 1 "b" 20] hfFresh = (hfFresh, none)) ∧
     (∀ st1 e,
        genFromRecords 1 [.utf8 1 "a" 10, .utf8 1 "b" 20] hfFresh = (st1, some e) →
        st1.cachesBuilt = HState.cachesBuilt hfFresh ∧
        st1.dumps = HState.dumps hfFresh ∧
        ∀ g2, g2 ≤ 3 → HState.cachesBuilt hfFresh < g2 →
          genFromRecords g2 [.utf8 1 "a" 10, .utf8 1 "b" 20] st1
            = genFromRecords g2 [.utf8 1 "a" 10, .utf8 1 "b" 20] hfFresh)) :=
  ⟨⟨by decide, by decide⟩,
   genFromRecords_staged_retry 1 [.utf8 1 "a" 10, .utf8 1 "b" 20] hfFresh
     (by decide) (by decide)⟩

/-! ## C4 — grouping of heap-dump segments into dumps -/

theorem specDumpGroupsGo_utf8 (cur : Option (List JRecord)) (i : Nat)
    (str : String) (a : Nat) (rest : List JRecord) :
    specDumpGroupsGo cur (.utf8 i str a :: rest) = specDumpGroupsGo cur rest := by
  cases cur <;> rfl

theorem specDumpGroupsGo_classLoad (cur : Option (List JRecord)) (cid : Nat)
    (cn : String) (rest : List JRecord) :
    specDumpGroupsGo cur (.classLoad cid cn :: rest) = specDumpGroupsGo cur rest := by
  cases cur <;> rfl

theorem specDumpGroupsGo_other (cur : Option (List JRecord)) (rest : List JRecord) :
    specDumpGroupsGo cur (.other :: rest) = specDumpGroupsGo cur rest := by
  cases cur <;> rfl

theorem genLoop_dumps_spec (built g : Nat) (hb : built < 3) (hg : 3 ≤ g) :
    ∀ (recs : List JRecord) (acc acc2 : GenAcc),
      genLoop built g acc recs = (acc2, none) →
      acc2.closedDumps ++ acc2.curdump.toList =
        acc.closedDumps ++ specDumpGroupsGo acc.curdump recs := by
  intro recs
  induction recs with
  | nil =>
    intro acc acc2 h
    injection h with h1 h2
    subst h1
    cases hcur : acc.curdump with
    | none => simp [specDumpGroupsGo, hcur]
    | some d => simp [specDumpGroupsGo, hcur]
  | cons r rest ih =>
    intro acc acc2 h
    simp only [genLoop] at h
    cases r with
    | utf8 i str a =>
      rw [specDumpGroupsGo_utf8]
      by_cases hcond : built < 1 ∧ 1 ≤ g
      · simp only [genStep, if_pos hcond] at h
        cases hg2 : dictGet acc.names i with
        | some old =>
          rw [hg2] at h
          simp at h
        | none =>
          rw [hg2] at h
          exact ih { acc with names := dictSet acc.names i (JRecord.utf8 i str a) }
            acc2 h
      · simp only [genStep, if_neg hcond] at h
        exact ih acc acc2 h
    | classLoad cid cn =>
      rw [specDumpGroupsGo_classLoad]
      by_cases hcond : built < 2 ∧ 2 ≤ g
      · simp only [genStep, if_pos hcond] at h
        cases hm1 : dictMem acc.classInfo (Sum.inr cn) with
        | true =>
          rw [hm1] at h
          simp at h
        | false =>
          rw [hm1] at h
          cases hm2 : dictMem acc.classInfo (Sum.inl cid) with
          | true =>
            rw [hm2] at h
            simp at h
          | false =>
            rw [hm2] at h
            simp only [Bool.false_eq_true, if_false] at h
            exact ih { acc with classInfo := dictSet (dictSet acc.classInfo (Sum.inr cn) (JRecord.classLoad cid cn)) (Sum.inl cid) (JRecord.classLoad cid cn) } acc2 h
      · simp only [genStep, if_neg hcond] at h
        exact ih acc acc2 h
    | heapDumpSegment a =>
      simp only [genStep, if_pos (⟨hb, hg⟩ : built < 3 ∧ 3 ≤ g)] at h
      cases hcur : acc.curdump with
      | none =>
        rw [hcur] at h
        exact ih { acc with curdump := some [JRecord.heapDumpSegment a] } acc2 h
      | some d =>
        rw [hcur] at h
        exact ih { acc with curdump := some (d ++ [JRecord.heapDumpSegment a]) }
          acc2 h
    | heapDumpEnd =>
      simp only [genStep, if_pos (⟨hb, hg⟩ : built < 3 ∧ 3 ≤ g)] at h
      cases hcur : acc.curdump with
      | none =>
        rw [hcur] at h
        have h2 := ih { names := acc.names, classInfo := acc.classInfo, closedDumps := acc.closedDumps ++ [[]], curdump := none } acc2 h
        rw [h2]
        simp [specDumpGroupsGo, List.append_assoc]
      | some d =>
        rw [hcur] at h
        have h2 := ih { acc with closedDumps := acc.closedDumps ++ [d], curdump := none } acc2 h
        rw [h2]
        simp [specDumpGroupsGo, List.append_assoc]
    | other =>
      rw [specDumpGroupsGo_other]
      exact ih acc acc2 h

/-- C4: during a level-3 build, consecutive HeapDumpSegment records are
grouped into one dump until a HeapDumpEnd closes it, a trailing run of
segments without HeapDumpEnd still yields a final dump, and a
HeapDumpEnd with no segment since the last close yields an empty dump:
whenever the build succeeds, the stored dump tuple is exactly the groups
described by the spec wording (specDumpGroups), in file order. -/
theorem dumps_grouping (records : List JRecord) (st : HState)
    (hb : st.cachesBuilt < 3)
    (hok : (genFromRecords 3 records st).2 = none) :
    ((genFromRecords 3 records st).1).dumps = some (specDumpGroups records) := by
  unfold genFromRecords at hok ⊢
  rw [if_neg (by omega : ¬ (3 < 3 ∨ 3 < st.cachesBuilt)),
    if_neg (by omega : ¬ 3 ≤ st.cachesBuilt)] at hok ⊢
  unfold genBuild at hok ⊢
  by_cases hass : st.cachesBuilt < 3 ∧ st.dumps ≠ none
  · rw [if_pos hass] at hok
    simp at hok
  · rw [if_neg hass] at hok ⊢
    cases hloop : genLoop st.cachesBuilt 3
        { names := if st.cachesBuilt < 1 then [] else st.names,
          classInfo := if st.cachesBuilt < 2 then [] else st.classInfo,
          closedDumps := [], curdump := none } records with
    | mk acc err =>
      rw [hloop] at hok
      cases err with
      | some e => simp at hok
      | none =>
        have h2 := genLoop_dumps_spec st.cachesBuilt 3 hb (by omega) records _ acc hloop
        show (if 3 ≤ 3 then some (acc.closedDumps ++ acc.curdump.toList) else st.dumps)
          = some (specDumpGroups records)
        rw [if_pos (by omega : 3 ≤ 3)]
        rw [h2]
        simp [specDumpGroups]

/-- C4 witness: the theorem over a record sequence exercising all three
edge shapes — two consecutive segments closed by an end, a second end
with no segment since the close (an empty dump), and a trailing segment
with no closing end. -/
theorem dumps_grouping_witness :
    (HState.cachesBuilt hfFresh < 3 ∧
     (genFromRecords 3
       [.heapDumpSegment 1, .heapDumpSegment 2, .heapDumpEnd,
        .heapDumpEnd, .heapDumpSegment 3] hfFresh).2 = none) ∧
    ((genFromRecords 3
       [.heapDumpSegment 1, .heapDumpSegment 2, .heapDumpEnd,
        .heapDumpEnd, .heapDumpSegment 3] hfFresh).1).dumps =
      some (specDumpGroups
       [.heapDumpSegment 1, .heapDumpSegment 2, .heapDumpEnd,
        .heapDumpEnd, .heapDumpSegment 3]) ∧
    specDumpGroups
       [.heapDumpSegment 1, .heapDumpSegment 2, .heapDumpEnd,
        .heapDumpEnd, .heapDumpSegment 3] =
      [[.heapDumpSegment 1, .heapDumpSegment 2], [], [.heapDumpSegment 3]] :=
  ⟨⟨by decide, rfl⟩,
   dumps_grouping
     [.heapDumpSegment 1, .heapDumpSegment 2, .heapDumpEnd,
      .heapDumpEnd, .heapDumpSegment 3] hfFresh (by decide) rfl,
   rfl⟩

/-! ## C7 — duplicate names and class loads -/

theorem genLoop_append (built g : Nat) (l1 l2 : List JRecord) (acc : GenAcc) :
    genLoop built g acc (l1 ++ l2) =
      match genLoop built g acc l1 with
      | (a1, none) => genLoop built g a1 l2
      | (a1, some e) => (a1, some e) := by
  induction l1 generalizing acc with
  | nil => rfl
  | cons r rest ih =>
    simp only [List.cons_append, genLoop]
    cases genStep built g acc r with
    | error e => rfl
    | ok acc2 => exact ih acc2

theorem genLoop_plain (built g : Nat) :
    ∀ (mid : List JRecord), (∀ r ∈ mid, notNameOrLoad r = true) →
      ∀ acc, ∃ acc2, genLoop built g acc mid = (acc2, none) ∧
        acc2.names = acc.names ∧ acc2.classInfo = acc.classInfo := by
  intro mid
  induction mid with
  | nil =>
    intro _ acc
    exact ⟨acc, rfl, rfl, rfl⟩
  | cons r rest ih =>
    intro hall acc
    have hr : notNameOrLoad r = true := hall r (by simp)
    have hrest : ∀ r2 ∈ rest, notNameOrLoad r2 = true :=
      fun r2 hm => hall r2 (by simp [hm])
    cases r with
    | utf8 i str a => simp [notNameOrLoad] at hr
    | classLoad cid cn => simp [notNameOrLoad] at hr
    | heapDumpSegment a =>
      simp only [genLoop]
      by_cases hcond : built < 3 ∧ 3 ≤ g
      · simp only [genStep, if_pos hcond]
        cases hcur : acc.curdump with
        | none =>
          obtain ⟨acc2, he, hn, hc⟩ := ih hrest
            { acc with curdump := some [JRecord.heapDumpSegment a] }
          exact ⟨acc2, he, hn, hc⟩
        | some d =>
          obtain ⟨acc2, he, hn, hc⟩ := ih hrest
            { acc with curdump := some (d ++ [JRecord.heapDumpSegment a]) }
          exact ⟨acc2, he, hn, hc⟩
      · simp only [genStep, if_neg hcond]
        exact ih hrest acc
    | heapDumpEnd =>
      simp only [genLoop]
      by_cases hcond : built < 3 ∧ 3 ≤ g
      · simp only [genStep, if_pos hcond]
        cases hcur : acc.curdump with
        | none =>
          obtain ⟨acc2, he, hn, hc⟩ := ih hrest
            { names := acc.names, classInfo := acc.classInfo, closedDumps := acc.closedDumps ++ [[]], curdump := none }
          exact ⟨acc2, he, hn, hc⟩
        | some d =>
          obtain ⟨acc2, he, hn, hc⟩ := ih hrest
            { acc with closedDumps := acc.closedDumps ++ [d], curdump := none }
          exact ⟨acc2, he, hn, hc⟩
      · simp only [genStep, if_neg hcond]
        exact ih hrest acc
    | other =>
      simp only [genLoop, genStep]
      exact ih hrest acc

theorem genFromRecords_fresh_of_loop (g : Nat) (recs : List JRecord)
    (hg1 : 1 ≤ g) (hg3 : g ≤ 3) (acc : GenAcc) (e : HError)
    (hloop : genLoop 0 g ⟨[], [], [], none⟩ recs = (acc, some e)) :
    genFromRecords g recs hfFresh = (⟨acc.names, acc.classInfo, none, 0⟩, some e) := by
  have h1 : ¬ (3 < g ∨ 3 < HState.cachesBuilt hfFresh) := by
    show ¬ (3 < g ∨ 3 < 0)
    omega
  have h2 : ¬ g ≤ HState.cachesBuilt hfFresh := by
    show ¬ g ≤ 0
    omega
  have h3 : ¬ (HState.cachesBuilt hfFresh < 3 ∧ HState.dumps hfFresh ≠ none) := by
    show ¬ ((0:Nat) < 3 ∧ (none : Option (List (List JRecord))) ≠ none)
    simp
  unfold genFromRecords
  rw [if_neg h1, if_neg h2]
  unfold genBuild
  rw [if_neg h3]
  have hpick : genLoop (HState.cachesBuilt hfFresh) g
      { names := if HState.cachesBuilt hfFresh < 1 then [] else HState.names hfFresh,
        classInfo := if HState.cachesBuilt hfFresh < 2 then [] else HState.classInfo hfFresh,
        closedDumps := [], curdump := none } recs = (acc, some e) := hloop
  rw [hpick]
  rfl

theorem genFromRecords_fresh_of_loop_ok (g : Nat) (recs : List JRecord)
    (hg1 : 1 ≤ g) (hg3 : g ≤ 3) (acc : GenAcc)
    (hloop : genLoop 0 g ⟨[], [], [], none⟩ recs = (acc, none)) :
    genFromRecords g recs hfFresh =
      (⟨acc.names, acc.classInfo,
        (if 3 ≤ g then some (acc.closedDumps ++ acc.curdump.toList) else none), g⟩,
       none) := by
  have h1 : ¬ (3 < g ∨ 3 < HState.cachesBuilt hfFresh) := by
    show ¬ (3 < g ∨ 3 < 0)
    omega
  have h2 : ¬ g ≤ HState.cachesBuilt hfFresh := by
    show ¬ g ≤ 0
    omega
  have h3 : ¬ (HState.cachesBuilt hfFresh < 3 ∧ HState.dumps hfFresh ≠ none) := by
    show ¬ ((0:Nat) < 3 ∧ (none : Option (List (List JRecord))) ≠ none)
    simp
  unfold genFromRecords
  rw [if_neg h1, if_neg h2]
  unfold genBuild
  rw [if_neg h3]
  have hpick : genLoop (HState.cachesBuilt hfFresh) g
      { names := if HState.cachesBuilt hfFresh < 1 then [] else HState.names hfFresh,
        classInfo := if HState.cachesBuilt hfFresh < 2 then [] else HState.classInfo hfFresh,
        closedDumps := [], curdump := none } recs = (acc, none) := hloop
  rw [hpick]
  rfl

/-- C7: a second Utf8 record with an already-registered name id makes the
build raise BadFormat citing the strings and offsets of both conflicting
records, and the error surfaces from whichever triggering call first
builds that level — name lookup (level 1) and dumps (level 3) alike; a
ClassLoad whose class name, or failing that class id, is already
registered raises BadFormat from the calls that build level 2 or higher
(class-info lookup and dumps). -/
theorem duplicate_records_badformat
    (nid : Nat) (s1 s2 : String) (a1 a2 : Nat) (mid : List JRecord)
    (hmid : ∀ r ∈ mid, notNameOrLoad r = true) (q : Nat)
    (cid cid2 : Nat) (cn cn2 : String) (mid2 : List JRecord)
    (hmid2 : ∀ r ∈ mid2, notNameOrLoad r = true) (k : ClassKey) :
    ((hfName (JRecord.utf8 nid s1 a1 :: (mid ++ [JRecord.utf8 nid s2 a2]))
        hfFresh q).2 = .error (.dupName nid s1 a1 s2 a2)) ∧
    ((hfDumps (JRecord.utf8 nid s1 a1 :: (mid ++ [JRecord.utf8 nid s2 a2]))
        hfFresh).2 = .error (.dupName nid s1 a1 s2 a2)) ∧
    (cn2 = cn →
      (hfGetClassInfo (JRecord.classLoad cid cn :: (mid2 ++ [JRecord.classLoad cid2 cn2]))
        hfFresh k).2 = .error (.dupClassName cn)) ∧
    (cn2 ≠ cn → cid2 = cid →
      (hfGetClassInfo (JRecord.classLoad cid cn :: (mid2 ++ [JRecord.classLoad cid2 cn2]))
        hfFresh k).2 = .error (.dupClassId cid)) ∧
    (cn2 = cn →
      (hfDumps (JRecord.classLoad cid cn :: (mid2 ++ [JRecord.classLoad cid2 cn2]))
        hfFresh).2 = .error (.dupClassName cn)) := by
  have hname : ∀ g, 1 ≤ g → ∃ acc,
      genLoop 0 g ⟨[], [], [], none⟩
        (JRecord.utf8 nid s1 a1 :: (mid ++ [JRecord.utf8 nid s2 a2]))
      = (acc, some (.dupName nid s1 a1 s2 a2)) := by
    intro g hg1
    obtain ⟨accM, hM, hMn, hMc⟩ := genLoop_plain 0 g mid hmid
      ⟨[(nid, JRecord.utf8 nid s1 a1)], [], [], none⟩
    refine ⟨accM, ?_⟩
    have hstep1 : genStep 0 g ⟨[], [], [], none⟩ (JRecord.utf8 nid s1 a1)
        = .ok ⟨[(nid, JRecord.utf8 nid s1 a1)], [], [], none⟩ := by
      simp [genStep, hg1, dictGet, dictSet]
    have hMn2 : accM.names = [(nid, JRecord.utf8 nid s1 a1)] := hMn
    have hstep2 : genStep 0 g accM (JRecord.utf8 nid s2 a2)
        = .error (.dupName nid s1 a1 s2 a2) := by
      simp [genStep, hg1, hMn2, dictGet, utf8Str, utf8Addr]
    simp only [genLoop, hstep1]
    rw [genLoop_append 0 g mid [JRecord.utf8 nid s2 a2] _, hM]
    simp only [genLoop, hstep2]
  have hclassName : cn2 = cn → ∀ g, 2 ≤ g → ∃ acc,
      genLoop 0 g ⟨[], [], [], none⟩
        (JRecord.classLoad cid cn :: (mid2 ++ [JRecord.classLoad cid2 cn2]))
      = (acc, some (.dupClassName cn)) := by
    intro hcn g hg2
    subst hcn
    obtain ⟨accM, hM, hMn, hMc⟩ := genLoop_plain 0 g mid2 hmid2
      ⟨[], [(Sum.inr cn2, JRecord.classLoad cid cn2),
           (Sum.inl cid, JRecord.classLoad cid cn2)], [], none⟩
    refine ⟨accM, ?_⟩
    have hstep1 : genStep 0 g ⟨[], [], [], none⟩ (JRecord.classLoad cid cn2)
        = .ok ⟨[], [(Sum.inr cn2, JRecord.classLoad cid cn2),
                    (Sum.inl cid, JRecord.classLoad cid cn2)], [], none⟩ := by
      simp [genStep, hg2, dictMem, dictGet, dictSet]
    have hMc2 : accM.classInfo = [(Sum.inr cn2, JRecord.classLoad cid cn2),
        (Sum.inl cid, JRecord.classLoad cid cn2)] := hMc
    have hstep2 : genStep 0 g accM (JRecord.classLoad cid2 cn2)
        = .error (.dupClassName cn2) := by
      simp [genStep, hg2, hMc2, dictMem, dictGet]
    simp only [genLoop, hstep1]
    rw [genLoop_append 0 g mid2 [JRecord.classLoad cid2 cn2] _, hM]
    simp only [genLoop, hstep2]
  have hclassId : cn2 ≠ cn → cid2 = cid → ∀ g, 2 ≤ g → ∃ acc,
      genLoop 0 g ⟨[], [], [], none⟩
        (JRecord.classLoad cid cn :: (mid2 ++ [JRecord.classLoad cid2 cn2]))
      = (acc, some (.dupClassId cid)) := by
    intro hcn hcid g hg2
    subst hcid
    obtain ⟨accM, hM, hMn, hMc⟩ := genLoop_plain 0 g mid2 hmid2
      ⟨[], [(Sum.inr cn, JRecord.classLoad cid2 cn),
           (Sum.inl cid2, JRecord.classLoad cid2 cn)], [], none⟩
    refine ⟨accM, ?_⟩
    have hstep1 : genStep 0 g ⟨[], [], [], none⟩ (JRecord.classLoad cid2 cn)
        = .ok ⟨[], [(Sum.inr cn, JRecord.classLoad cid2 cn),
                    (Sum.inl cid2, JRecord.classLoad cid2 cn)], [], none⟩ := by
      simp [genStep, hg2, dictMem, dictGet, dictSet]
    have hMc2 : accM.classInfo = [(Sum.inr cn, JRecord.classLoad cid2 cn),
        (Sum.inl cid2, JRecord.classLoad cid2 cn)] := hMc
    have hstep2 : genStep 0 g accM (JRecord.classLoad cid2 cn2)
        = .error (.dupClassId cid2) := by
      simp [genStep, hg2, hMc2, dictMem, dictGet, hcn, Ne.symm hcn]
    simp only [genLoop, hstep1]
    rw [genLoop_append 0 g mid2 [JRecord.classLoad cid2 cn2] _, hM]
    simp only [genLoop, hstep2]
  have hdg : dictGet (HState.names hfFresh) q = none := rfl
  have hdc : dictGet (HState.classInfo hfFresh) k = none := rfl
  have hdd : HState.dumps hfFresh = none := rfl
  refine ⟨?_, ?_, ?_, ?_, ?_⟩
  · obtain ⟨accA, hA⟩ := hname 1 (by omega)
    have hg := genFromRecords_fresh_of_loop 1 _ (by omega) (by omega) accA _ hA
    unfold hfName
    rw [hdg, hg]
  · obtain ⟨accA, hA⟩ := hname 3 (by omega)
    have hg := genFromRecords_fresh_of_loop 3 _ (by omega) (by omega) accA _ hA
    unfold hfDumps
    rw [hdd, hg]
  · intro hcn
    obtain ⟨accA, hA⟩ := hclassName hcn 2 (by omega)
    have hg := genFromRecords_fresh_of_loop 2 _ (by omega) (by omega) accA _ hA
    unfold hfGetClassInfo
    rw [hdc, hg]
  · intro hcn hcid
    obtain ⟨accA, hA⟩ := hclassId hcn hcid 2 (by omega)
    have hg := genFromRecords_fresh_of_loop 2 _ (by omega) (by omega) accA _ hA
    unfold hfGetClassInfo
    rw [hdc, hg]
  · intro hcn
    obtain ⟨accA, hA⟩ := hclassName hcn 3 (by omega)
    have hg := genFromRecords_fresh_of_loop 3 _ (by omega) (by omega) accA _ hA
    unfold hfDumps
    rw [hdd, hg]

/-- C7 witness: the theorem at concrete duplicate records, with an
ignored heap-dump segment between the two conflicting records. -/
theorem duplicate_records_badformat_witness :
    ((∀ r ∈ [JRecord.heapDumpSegment 7], notNameOrLoad r = true) ∧
     (∀ r ∈ ([] : List JRecord), notNameOrLoad r = true)) ∧
    (((hfName [JRecord.utf8 1 "a" 10, JRecord.heapDumpSegment 7,
        JRecord.utf8 1 "b" 20] hfFresh 5).2 = .error (.dupName 1 "a" 10 "b" 20)) ∧
     ((hfDumps [JRecord.utf8 1 "a" 10, JRecord.heapDumpSegment 7,
        JRecord.utf8 1 "b" 20] hfFresh).2 = .error (.dupName 1 "a" 10 "b" 20)) ∧
     ("C" = "C" →
       (hfGetClassInfo [JRecord.classLoad 5 "C", JRecord.classLoad 6 "C"]
         hfFresh (Sum.inl 5)).2 = .error (.dupClassName "C")) ∧
     (("C" : String) ≠ "C" → 6 = 5 →
       (hfGetClassInfo [JRecord.classLoad 5 "C", JRecord.classLoad 6 "C"]
         hfFresh (Sum.inl 5)).2 = .error (.dupClassId 5)) ∧
     ("C" = "C" →
       (hfDumps [JRecord.classLoad 5 "C", JRecord.classLoad 6 "C"]
         hfFresh).2 = .error (.dupClassName "C"))) :=
  ⟨⟨by decide, by decide⟩,
   duplicate_records_badformat 1 "a" "b" 10 20 [JRecord.heapDumpSegment 7]
     (by decide) 5 5 6 "C" "C" [] (by decide) (Sum.inl 5)⟩

/-! ## C8 — class-info lookup by id and by name -/

theorem dictKeys_append {α β : Type} (d1 d2 : List (α × β)) :
    dictKeys (d1 ++ d2) = dictKeys d1 ++ dictKeys d2 :=
  List.map_append _ _ _

theorem genLoop_level2_full :
    ∀ (recs : List JRecord) (acc : GenAcc),
      (dictKeys acc.names ++ dictKeys (namePairs recs)).Nodup →
      (dictKeys acc.classInfo ++ dictKeys (loadPairs recs)).Nodup →
      genLoop 0 2 acc recs =
        ({ acc with names := acc.names ++ namePairs recs,
                    classInfo := acc.classInfo ++ loadPairs recs }, none) := by
  intro recs
  induction recs with
  | nil =>
    intro acc _ _
    simp [genLoop, namePairs, loadPairs]
  | cons r rest ih =>
    intro acc hn hc
    cases r with
    | utf8 i str a =>
      rw [show dictKeys (namePairs (JRecord.utf8 i str a :: rest))
          = i :: dictKeys (namePairs rest) from rfl] at hn
      have hi : i ∉ dictKeys acc.names := by
        intro hmem
        exact (List.nodup_append.mp hn).2.2 hmem (by simp)
      have hgetn : dictGet acc.names i = none := dictGet_eq_none_of_not_mem hi
      have hsetn : dictSet acc.names i (JRecord.utf8 i str a)
          = acc.names ++ [(i, JRecord.utf8 i str a)] := dictSet_of_not_mem _ hi
      have hn2 : (dictKeys (acc.names ++ [(i, JRecord.utf8 i str a)])
          ++ dictKeys (namePairs rest)).Nodup := by
        rw [dictKeys_append]
        simpa [List.append_assoc, dictKeys] using hn
      have hc2 : (dictKeys acc.classInfo ++ dictKeys (loadPairs rest)).Nodup := hc
      simp only [genLoop, genStep, if_pos (by omega : (0:Nat) < 1 ∧ (1:Nat) ≤ 2),
        hgetn, hsetn]
      rw [ih { acc with names := acc.names ++ [(i, JRecord.utf8 i str a)] } hn2 hc2]
      simp [namePairs, loadPairs, List.append_assoc]
    | classLoad cid cn =>
      rw [show dictKeys (loadPairs (JRecord.classLoad cid cn :: rest))
          = Sum.inr cn :: Sum.inl cid :: dictKeys (loadPairs rest) from rfl] at hc
      have h1 : (Sum.inr cn : ClassKey) ∉ dictKeys acc.classInfo := by
        intro hmem
        exact (List.nodup_append.mp hc).2.2 hmem (by simp)
      have h2 : (Sum.inl cid : ClassKey) ∉ dictKeys acc.classInfo := by
        intro hmem
        exact (List.nodup_append.mp hc).2.2 hmem (by simp)
      have hm1 : dictMem acc.classInfo (Sum.inr cn) = false := by
        simp [dictMem, dictGet_eq_none_of_not_mem h1]
      have hm2 : dictMem acc.classInfo (Sum.inl cid) = false := by
        simp [dictMem, dictGet_eq_none_of_not_mem h2]
      have hset1 : dictSet acc.classInfo (Sum.inr cn) (JRecord.classLoad cid cn)
          = acc.classInfo ++ [(Sum.inr cn, JRecord.classLoad cid cn)] :=
        dictSet_of_not_mem _ h1
      have h2b : (Sum.inl cid : ClassKey)
          ∉ dictKeys (acc.classInfo ++ [(Sum.inr cn, JRecord.classLoad cid cn)]) := by
        rw [dictKeys_append]
        intro hmem
        rcases List.mem_append.mp hmem with hmem1 | hmem2
        · exact h2 hmem1
        · simp [dictKeys] at hmem2
      have hset2 : dictSet (acc.classInfo ++ [(Sum.inr cn, JRecord.classLoad cid cn)])
            (Sum.inl cid) (JRecord.classLoad cid cn)
          = acc.classInfo ++ [(Sum.inr cn, JRecord.classLoad cid cn)]
            ++ [(Sum.inl cid, JRecord.classLoad cid cn)] :=
        dictSet_of_not_mem _ h2b
      have hn2 : (dictKeys acc.names ++ dictKeys (namePairs rest)).Nodup := hn
      have hc2 : (dictKeys (acc.classInfo ++ [(Sum.inr cn, JRecord.classLoad cid cn)]
          ++ [(Sum.inl cid, JRecord.classLoad cid cn)])
          ++ dictKeys (loadPairs rest)).Nodup := by
        rw [dictKeys_append, dictKeys_append]
        simpa [List.append_assoc, dictKeys] using hc
      simp only [genLoop, genStep, if_pos (by omega : (0:Nat) < 2 ∧ (2:Nat) ≤ 2),
        hm1, hm2, Bool.false_eq_true, if_false, hset1, hset2]
      rw [ih { acc with classInfo := acc.classInfo
          ++ [(Sum.inr cn, JRecord.classLoad cid cn)]
          ++ [(Sum.inl cid, JRecord.classLoad cid cn)] } hn2 hc2]
      simp [loadPairs, namePairs, List.append_assoc]
    | heapDumpSegment a =>
      simp only [genLoop, genStep, if_neg (by omega : ¬ ((0:Nat) < 3 ∧ (3:Nat) ≤ 2))]
      exact ih acc hn hc
    | heapDumpEnd =>
      simp only [genLoop, genStep, if_neg (by omega : ¬ ((0:Nat) < 3 ∧ (3:Nat) ≤ 2))]
      exact ih acc hn hc
    | other =>
      simp only [genLoop, genStep]
      exact ih acc hn hc

theorem loadPairs_key_mem :
    ∀ (recs : List JRecord) (cid : Nat) (cn : String),
      JRecord.classLoad cid cn ∈ recs →
      Sum.inl cid ∈ dictKeys (loadPairs recs) ∧
      Sum.inr cn ∈ dictKeys (loadPairs recs) := by
  intro recs
  induction recs with
  | nil =>
    intro cid cn h
    simp at h
  | cons r rest ih =>
    intro cid cn h
    rw [List.mem_cons] at h
    cases h with
    | inl he =>
      subst he
      constructor
      · exact List.mem_cons_of_mem _ (List.mem_cons_self _ _)
      · exact List.mem_cons_self _ _
    | inr hm =>
      obtain ⟨ha, hb⟩ := ih cid cn hm
      cases r with
      | classLoad cid2 cn2 =>
        exact ⟨List.mem_cons_of_mem _ (List.mem_cons_of_mem _ ha),
          List.mem_cons_of_mem _ (List.mem_cons_of_mem _ hb)⟩
      | utf8 i str a => exact ⟨ha, hb⟩
      | heapDumpSegment a => exact ⟨ha, hb⟩
      | heapDumpEnd => exact ⟨ha, hb⟩
      | other => exact ⟨ha, hb⟩

theorem dictGet_loadPairs :
    ∀ (recs : List JRecord), (dictKeys (loadPairs recs)).Nodup →
      ∀ (cid : Nat) (cn : String), JRecord.classLoad cid cn ∈ recs →
      dictGet (loadPairs recs) (Sum.inl cid) = some (JRecord.classLoad cid cn) ∧
      dictGet (loadPairs recs) (Sum.inr cn) = some (JRecord.classLoad cid cn) := by
  intro recs
  induction recs with
  | nil =>
    intro _ cid cn h
    simp at h
  | cons r rest ih =>
    intro hnd cid cn h
    rw [List.mem_cons] at h
    cases r with
    | classLoad cid2 cn2 =>
      rw [show dictKeys (loadPairs (JRecord.classLoad cid2 cn2 :: rest))
          = Sum.inr cn2 :: Sum.inl cid2 :: dictKeys (loadPairs rest) from rfl] at hnd
      have hnd2 := (List.nodup_cons.mp hnd).2
      have hcn2 : (Sum.inr cn2 : ClassKey) ∉ Sum.inl cid2 :: dictKeys (loadPairs rest) :=
        (List.nodup_cons.mp hnd).1
      have hcid2 : (Sum.inl cid2 : ClassKey) ∉ dictKeys (loadPairs rest) :=
        (List.nodup_cons.mp hnd2).1
      cases h with
      | inl he =>
        injection he with he1 he2
        subst he1
        subst he2
        constructor
        · show dictGet ((Sum.inr cn, JRecord.classLoad cid cn)
            :: (Sum.inl cid, JRecord.classLoad cid cn) :: loadPairs rest)
            (Sum.inl cid) = _
          rw [dictGet_cons, if_neg (by simp), dictGet_cons, if_pos rfl]
        · show dictGet ((Sum.inr cn, JRecord.classLoad cid cn)
            :: (Sum.inl cid, JRecord.classLoad cid cn) :: loadPairs rest)
            (Sum.inr cn) = _
          rw [dictGet_cons, if_pos rfl]
      | inr hm =>
        obtain ⟨hka, hkb⟩ := loadPairs_key_mem rest cid cn hm
        have hne1 : cid2 ≠ cid := by
          intro he
          subst he
          exact hcid2 hka
        have hne2 : cn2 ≠ cn := by
          intro he
          subst he
          exact hcn2 (List.mem_cons_of_mem _ hkb)
        obtain ⟨ha, hb⟩ := ih (List.nodup_cons.mp hnd2).2 cid cn hm
        constructor
        · show dictGet ((Sum.inr cn2, JRecord.classLoad cid2 cn2)
            :: (Sum.inl cid2, JRecord.classLoad cid2 cn2) :: loadPairs rest)
            (Sum.inl cid) = _
          rw [dictGet_cons, if_neg (by simp), dictGet_cons,
            if_neg (by simp [hne1]), ha]
        · show dictGet ((Sum.inr cn2, JRecord.classLoad cid2 cn2)
            :: (Sum.inl cid2, JRecord.classLoad cid2 cn2) :: loadPairs rest)
            (Sum.inr cn) = _
          rw [dictGet_cons, if_neg (by simp [hne2]), dictGet_cons,
            if_neg (by simp), hb]
    | utf8 i str a =>
      cases h with
      | inl he => exact absurd he (by simp)
      | inr hm => exact ih hnd cid cn hm
    | heapDumpSegment a =>
      cases h with
      | inl he => exact absurd he (by simp)
      | inr hm => exact ih hnd cid cn hm
    | heapDumpEnd =>
      cases h with
      | inl he => exact absurd he (by simp)
      | inr hm => exact ih hnd cid cn hm
    | other =>
      cases h with
      | inl he => exact absurd he (by simp)
      | inr hm => exact ih hnd cid cn hm

theorem hfGetClassInfo_fresh_lookup (records : List JRecord) (k : ClassKey)
    (n2 : List (Nat × JRecord)) (c2 : List (ClassKey × JRecord))
    (hgen : genFromRecords 2 records hfFresh = (⟨n2, c2, none, 2⟩, none)) :
    (hfGetClassInfo records hfFresh k).2
      = (match dictGet c2 k with
         | some r => Except.ok r
         | none => Except.error HError.classNotFound) := by
  unfold hfGetClassInfo
  rw [show dictGet (HState.classInfo hfFresh) k = none from rfl, hgen]
  show ((match dictGet c2 k with
    | some r => ((⟨n2, c2, none, 2⟩ : HState), Except.ok r)
    | none => ((⟨n2, c2, none, 2⟩ : HState),
        Except.error HError.classNotFound)).2 : Except HError JRecord) = _
  cases dictGet c2 k <;> rfl

/-- C8: over a well-formed record list (no duplicate name ids, class ids
or class names), class-info lookup keyed by the class object id and
keyed by the class name both return the ClassLoad record itself, and a
lookup with a key no ClassLoad record carries raises ClassNotFound. -/
theorem class_info_lookup (records : List JRecord) (cid : Nat) (cn : String)
    (hn : (dictKeys (namePairs records)).Nodup)
    (hc : (dictKeys (loadPairs records)).Nodup)
    (hmem : JRecord.classLoad cid cn ∈ records) :
    (hfGetClassInfo records hfFresh (Sum.inl cid)).2
      = .ok (JRecord.classLoad cid cn) ∧
    (hfGetClassInfo records hfFresh (Sum.inr cn)).2
      = .ok (JRecord.classLoad cid cn) ∧
    ∀ k : ClassKey, k ∉ dictKeys (loadPairs records) →
      (hfGetClassInfo records hfFresh k).2 = .error .classNotFound := by
  have hloop0 := genLoop_level2_full records ⟨[], [], [], none⟩
    (by simpa [dictKeys] using hn) (by simpa [dictKeys] using hc)
  have hloop : genLoop 0 2 ⟨[], [], [], none⟩ records
      = (⟨namePairs records, loadPairs records, [], none⟩, none) := by
    rw [hloop0]
    simp
  have hgen : genFromRecords 2 records hfFresh
      = (⟨namePairs records, loadPairs records, none, 2⟩, none) :=
    genFromRecords_fresh_of_loop_ok 2 records (by omega) (by omega)
      ⟨namePairs records, loadPairs records, [], none⟩ hloop
  obtain ⟨hga, hgb⟩ := dictGet_loadPairs records hc cid cn hmem
  refine ⟨?_, ?_, ?_⟩
  · rw [hfGetClassInfo_fresh_lookup records (Sum.inl cid) _ _ hgen, hga]
  · rw [hfGetClassInfo_fresh_lookup records (Sum.inr cn) _ _ hgen, hgb]
  · intro k hk
    rw [hfGetClassInfo_fresh_lookup records k _ _ hgen,
      dictGet_eq_none_of_not_mem hk]

/-- C8 witness: the theorem over a concrete well-formed record list with
two class loads, looked up by id and by name, plus a missing key. -/
theorem class_info_lookup_witness :
    ((dictKeys (namePairs [JRecord.utf8 1 "n" 9, JRecord.classLoad 5 "C",
        JRecord.heapDumpSegment 2, JRecord.classLoad 7 "D"])).Nodup ∧
     (dictKeys (loadPairs [JRecord.utf8 1 "n" 9, JRecord.classLoad 5 "C",
        JRecord.heapDumpSegment 2, JRecord.classLoad 7 "D"])).Nodup ∧
     JRecord.classLoad 5 "C" ∈ [JRecord.utf8 1 "n" 9, JRecord.classLoad 5 "C",
        JRecord.heapDumpSegment 2, JRecord.classLoad 7 "D"]) ∧
    ((hfGetClassInfo [JRecord.utf8 1 "n" 9, JRecord.classLoad 5 "C",
        JRecord.heapDumpSegment 2, JRecord.classLoad 7 "D"] hfFresh
        (Sum.inl 5)).2 = .ok (JRecord.classLoad 5 "C") ∧
     (hfGetClassInfo [JRecord.utf8 1 "n" 9, JRecord.classLoad 5 "C",
        JRecord.heapDumpSegment 2, JRecord.classLoad 7 "D"] hfFresh
        (Sum.inr "C")).2 = .ok (JRecord.classLoad 5 "C") ∧
     ∀ k : ClassKey, k ∉ dictKeys (loadPairs [JRecord.utf8 1 "n" 9,
        JRecord.classLoad 5 "C", JRecord.heapDumpSegment 2,
        JRecord.classLoad 7 "D"]) →
       (hfGetClassInfo [JRecord.utf8 1 "n" 9, JRecord.classLoad 5 "C",
          JRecord.heapDumpSegment 2, JRecord.classLoad 7 "D"] hfFresh k).2
         = .error .classNotFound) :=
  ⟨⟨by decide, by decide, by decide⟩,
   class_info_lookup [JRecord.utf8 1 "n" 9, JRecord.classLoad 5 "C",
      JRecord.heapDumpSegment 2, JRecord.classLoad 7 "D"] 5 "C"
     (by decide) (by decide) (by decide)⟩

/-! ## C2 — InstanceDump subrecord length -/

/-- C2 counterexample: at idsize 4 and DATASIZE 4 the length by which the
framer advances (ObjectRecord.__len__, confirmed by test_object_len and
test_object_addr) is 21, not idsize + 4 + idsize + 4 + DATASIZE = 20: the
claimed formula omits the 1-byte subrecord tag. -/
theorem objectRecordLen_claim_counterexample :
    objectRecordLen 4 4 = 21 ∧ objectRecordLen 4 4 ≠ 4 + 4 + 4 + 4 + 4 := by
  decide

/-- C2 amended: for every idsize and DATASIZE, the InstanceDump subrecord
length equals 1 + idsize + 4 + idsize + 4 + DATASIZE — the 1-byte tag
followed by id, stack serial, class id, the 4-byte data-length field and
the DATASIZE payload bytes; in particular 13 + 2*idsize for the 4-byte
payloads used by test_objectrecord.py. -/
theorem objectRecordLen_amended (idsize datasize : Nat) :
    objectRecordLen idsize datasize = 1 + idsize + 4 + idsize + 4 + datasize ∧
    objectRecordLen idsize 4 = 13 + 2 * idsize := by
  constructor <;>
    simp [objectRecordLen, objectRecordDataOffset, autoOffsetAfter, List.sum_cons] <;>
    omega

/-! ## C6 — cast applied to class objects -/

/-- C6 counterexample: narrowing the class object A to the unrelated java
class B raises TypeError rather than returning the target: the isinstance
check in Ref.__new__ runs before the class-object early return, and
JavaClass.__instancecheck__ accepts a class object only for classes named
java.lang.Object or java.lang.Class. -/
theorem cast_class_object_counterexample :
    cast (.jcls (JClass.mk "A" "com" [] [] .javaObject))
      (some (JClass.mk "B" "com" [] [] .javaObject)) = .error .typeError := rfl

/-- C6 amended: for a class-object target, cast returns the target itself
unchanged when declared is None or when the declared class is named
java.lang.Object or java.lang.Class; for every other declared type it
raises TypeError.  A Ref is never produced for a class object. -/
theorem cast_class_object_amended (c d : JClass) :
    cast (.jcls c) none = .ok (.jcls c) ∧
    cast (.jcls c) (some d) =
      (if clsStr d = "java.lang.Object" ∨ clsStr d = "java.lang.Class"
       then .ok (.jcls c) else .error .typeError) := by
  constructor
  · rfl
  · cases d with
    | javaObject =>
      rw [if_neg]
      · rfl
      · decide
    | mk n m a sf sup =>
      by_cases h : clsStr (JClass.mk n m a sf sup) = "java.lang.Object"
          ∨ clsStr (JClass.mk n m a sf sup) = "java.lang.Class"
      · rw [if_pos h]
        simp [cast, refNew, unwrapRef, pyTypeIs, pyIsinstance, h]
      · rw [if_neg h]
        simp [cast, refNew, unwrapRef, pyTypeIs, pyIsinstance, h]

/-! ## C9 — read_char and surrogate code units -/

/-- C9: the code evaluated at the failing input.  read_char over the two
bytes d8 00 (the lone high-surrogate code unit 0xD800) raises
UnicodeDecodeError — the strict utf-16-be codec rejects unpaired
surrogates — instead of returning the code unit as-is; a lone low
surrogate fails the same way, while a non-surrogate code unit is
returned.  The read takes exactly the two bytes at the address. -/
theorem readChar_surrogate_failing :
    readChar [0xD8, 0x00] 0 = .error .unicodeDecodeError ∧
    readChar [0xDC, 0x00] 0 = .error .unicodeDecodeError ∧
    readChar [0x00, 0x41] 0 = .ok 0x41 ∧
    readChar [0xD8, 0x00, 0xDC, 0x00] 0 = .error .unicodeDecodeError :=
  ⟨rfl, rfl, rfl, rfl⟩

/-! ## C10 — negative addresses -/

/-- C10: every primitive read with a negative start address fails with
EofError, the same error kind as a read past end-of-file; low addresses
never reach the data and no read with a negative address returns data. -/
theorem negative_address_reads_eof (data : List Nat) (addr : Int)
    (idsize : Nat) (nbytes : Option Int) (h : addr < 0) :
    readBytesPy data addr nbytes = .error .eofError ∧
    readByte data addr = .error .eofError ∧
    readUint data addr = .error .eofError ∧
    readInt data addr = .error .eofError ∧
    readUshort data addr = .error .eofError ∧
    readShort data addr = .error .eofError ∧
    readLong data addr = .error .eofError ∧
    readBoolean data addr = .error .eofError ∧
    readChar data addr = .error .eofError ∧
    readId data idsize addr = .error .eofError ∧
    readFloatBits data addr = .error .eofError ∧
    readDoubleBits data addr = .error .eofError := by
  have key : ∀ nb : Option Int, readBytesPy data addr nb = .error .eofError := by
    intro nb
    unfold readBytesPy
    rw [if_pos h]
  refine ⟨key nbytes, ?_, ?_, ?_, ?_, ?_, ?_, ?_, ?_, ?_, ?_, ?_⟩
  · unfold readByte
    rw [if_pos h]
  · unfold readUint
    rw [key]
    rfl
  · unfold readInt
    rw [key]
    rfl
  · unfold readUshort
    rw [key]
    rfl
  · unfold readShort
    rw [key]
    rfl
  · unfold readLong
    rw [key]
    rfl
  · unfold readBoolean
    rw [key]
  · unfold readChar
    rw [key]
  · unfold readId
    rw [key]
    rfl
  · unfold readFloatBits
    rw [key]
    rfl
  · unfold readDoubleBits
    rw [key]
    rfl

/-! ## C1 — shadowed fields, plain lookup versus narrowed lookup -/

/-- C1: when the dynamic class B shadows a field name declared by its
superclass A, plain lookup walks the chain from B and returns the value
stored in the B-level slot, cast(obj, A) produces the Ref view, and
lookup through that view starts the walk at A and returns the A-level
value; with the B value jint 2 and the A value jint 1 this is the
concrete shadowing scenario of the spec. -/
theorem shadowed_field_lookup_via_ref (aName bName x : String)
    (v1 v2 : JValue) (oid : Nat) (A B : JClass) (o : JavaObj)
    (hA : A = JClass.mk aName "" [x] [] .javaObject)
    (hB : B = JClass.mk bName "" [x] [] A)
    (ho : o = { objid := oid, cls := B, ifieldvals := [(B, [v2]), (A, [v1])] }) :
    objGetattr o x none = .ok v2 ∧
    cast (.obj o) (some A) = .ok (.ref o A) ∧
    pyGetattr (.ref o A) x = .ok v1 := by
  subst ho
  subst hB
  subst hA
  have hsingle : hprofIfields [x] = [(x, 0)] := rfl
  refine ⟨?_, ?_, ?_⟩
  · simp [objGetattr, objGetattrFrom, hsingle, dictGet]
  · simp [cast, refNew, unwrapRef, pyTypeIs, pyIsinstance, chainContains]
  · simp [pyGetattr, objGetattr, objGetattrFrom, hsingle, dictGet]

/-- C1 witness: the theorem at the concrete scenario of the spec, classes
A and B both declaring x, B.x = 2 shadowing A.x = 1. -/
theorem shadowed_field_lookup_via_ref_witness :
    (objGetattr
      { objid := 1,
        cls := JClass.mk "B" "" ["x"] [] (JClass.mk "A" "" ["x"] [] .javaObject),
        ifieldvals :=
          [(JClass.mk "B" "" ["x"] [] (JClass.mk "A" "" ["x"] [] .javaObject),
            [JValue.jint 2]),
           (JClass.mk "A" "" ["x"] [] .javaObject, [JValue.jint 1])] }
      "x" none = .ok (JValue.jint 2)) ∧
    (cast (.obj
      { objid := 1,
        cls := JClass.mk "B" "" ["x"] [] (JClass.mk "A" "" ["x"] [] .javaObject),
        ifieldvals :=
          [(JClass.mk "B" "" ["x"] [] (JClass.mk "A" "" ["x"] [] .javaObject),
            [JValue.jint 2]),
           (JClass.mk "A" "" ["x"] [] .javaObject, [JValue.jint 1])] })
      (some (JClass.mk "A" "" ["x"] [] .javaObject)) = .ok (.ref
      { objid := 1,
        cls := JClass.mk "B" "" ["x"] [] (JClass.mk "A" "" ["x"] [] .javaObject),
        ifieldvals :=
          [(JClass.mk "B" "" ["x"] [] (JClass.mk "A" "" ["x"] [] .javaObject),
            [JValue.jint 2]),
           (JClass.mk "A" "" ["x"] [] .javaObject, [JValue.jint 1])] }
      (JClass.mk "A" "" ["x"] [] .javaObject))) ∧
    (pyGetattr (.ref
      { objid := 1,
        cls := JClass.mk "B" "" ["x"] [] (JClass.mk "A" "" ["x"] [] .javaObject),
        ifieldvals :=
          [(JClass.mk "B" "" ["x"] [] (JClass.mk "A" "" ["x"] [] .javaObject),
            [JValue.jint 2]),
           (JClass.mk "A" "" ["x"] [] .javaObject, [JValue.jint 1])] }
      (JClass.mk "A" "" ["x"] [] .javaObject)) "x" = .ok (JValue.jint 1)) :=
  shadowed_field_lookup_via_ref "A" "B" "x" (JValue.jint 1) (JValue.jint 2) 1
    _ _ _ rfl rfl rfl

/-! ## C5 — cast is idempotent and identity-returning -/

/-- C5: for every JavaObject x and supertype T of the dynamic class,
casting twice gives the same value as casting once; casting to the
dynamic type itself, or with no declared type, returns the object itself
and not a wrapper. -/
theorem cast_idempotent_identity (o : JavaObj) (T : JClass)
    (hT : chainContains o.cls T = true) :
    (∃ y, cast (.obj o) (some T) = .ok y ∧ cast y (some T) = .ok y) ∧
    cast (.obj o) (some o.cls) = .ok (.obj o) ∧
    cast (.obj o) none = .ok (.obj o) := by
  have hinst : pyIsinstance (.obj o) T = true := by
    cases T with
    | javaObject => rfl
    | mk n m a sf sup => exact hT
  refine ⟨?_, ?_, rfl⟩
  · by_cases h : o.cls = T
    · exact ⟨.obj o, by simp [cast, refNew, unwrapRef, pyTypeIs, h],
        by simp [cast, refNew, unwrapRef, pyTypeIs, h]⟩
    · refine ⟨.ref o T, ?_, ?_⟩
      · simp [cast, refNew, unwrapRef, pyTypeIs, h, hinst]
      · have hinst2 : pyIsinstance (unwrapRef (.ref o T)) T = true := hinst
        simp only [cast, refNew, unwrapRef] at hinst2 ⊢
        simp [pyTypeIs, h, hinst2]
  · simp [cast, refNew, unwrapRef, pyTypeIs]

/-- C5 witness: the theorem at the concrete B-extends-A scenario,
narrowing to the proper supertype A. -/
theorem cast_idempotent_identity_witness :
    chainContains
      (JavaObj.cls
        { objid := 1,
          cls := JClass.mk "B" "" ["x"] [] (JClass.mk "A" "" ["x"] [] .javaObject),
          ifieldvals := [] })
      (JClass.mk "A" "" ["x"] [] .javaObject) = true ∧
    ((∃ y, cast (.obj
        { objid := 1,
          cls := JClass.mk "B" "" ["x"] [] (JClass.mk "A" "" ["x"] [] .javaObject),
          ifieldvals := [] })
        (some (JClass.mk "A" "" ["x"] [] .javaObject)) = .ok y ∧
        cast y (some (JClass.mk "A" "" ["x"] [] .javaObject)) = .ok y) ∧
     cast (.obj
        { objid := 1,
          cls := JClass.mk "B" "" ["x"] [] (JClass.mk "A" "" ["x"] [] .javaObject),
          ifieldvals := [] })
        (some (JavaObj.cls
          { objid := 1,
            cls := JClass.mk "B" "" ["x"] [] (JClass.mk "A" "" ["x"] [] .javaObject),
            ifieldvals := [] })) = .ok (.obj
        { objid := 1,
          cls := JClass.mk "B" "" ["x"] [] (JClass.mk "A" "" ["x"] [] .javaObject),
          ifieldvals := [] }) ∧
     cast (.obj
        { objid := 1,
          cls := JClass.mk "B" "" ["x"] [] (JClass.mk "A" "" ["x"] [] .javaObject),
          ifieldvals := [] }) none = .ok (.obj
        { objid := 1,
          cls := JClass.mk "B" "" ["x"] [] (JClass.mk "A" "" ["x"] [] .javaObject),
          ifieldvals := [] })) :=
  ⟨by decide,
   cast_idempotent_identity
     { objid := 1,
       cls := JClass.mk "B" "" ["x"] [] (JClass.mk "A" "" ["x"] [] .javaObject),
       ifieldvals := [] }
     (JClass.mk "A" "" ["x"] [] .javaObject) (by decide)⟩

/-- C10 witness: the theorem applied at a concrete negative address. -/
theorem negative_address_reads_eof_witness :
    (-1 : Int) < 0 ∧
    (readBytesPy [7, 7, 7] (-1) (some 2) = .error .eofError ∧
     readByte [7, 7, 7] (-1) = .error .eofError ∧
     readUint [7, 7, 7] (-1) = .error .eofError ∧
     readInt [7, 7, 7] (-1) = .error .eofError ∧
     readUshort [7, 7, 7] (-1) = .error .eofError ∧
     readShort [7, 7, 7] (-1) = .error .eofError ∧
     readLong [7, 7, 7] (-1) = .error .eofError ∧
     readBoolean [7, 7, 7] (-1) = .error .eofError ∧
     readChar [7, 7, 7] (-1) = .error .eofError ∧
     readId [7, 7, 7] 4 (-1) = .error .eofError ∧
     readFloatBits [7, 7, 7] (-1) = .error .eofError ∧
     readDoubleBits [7, 7, 7] (-1) = .error .eofError) :=
  ⟨by decide, negative_address_reads_eof [7, 7, 7] (-1) 4 (some 2) (by decide)⟩

end HprofSpec
